import Mathlib

/-!
Shallow embedding of the pylisp evaluator/compiler core (`pylisp/nodes.py`):
the AST node hierarchy, the tree classifier `Node.parse`, the tree-walking
evaluator (each node class `__call__`), and the instruction compiler (each
node class `__iter__`).  Numbers are modelled as Python `Decimal` values in
the default context: an exact coefficient/exponent pair, with results of
arithmetic rounded half-even to 28 significant digits.  The environment is a
`ChainMap` of dict frames; dict frames live in an explicit store (`St`) and
are referred to by index, so that frame mutation and sharing behave as in
Python.  The module-level scoping switch and the external reader `parse`
are threaded as an explicit context.
-/

namespace Pylisp

/-- Default context precision of the Python `decimal` module. -/
def PREC : Nat := 28

/-- Fuel-bounded decimal-digit counter (the fuel argument only bounds the
recursion; `numDigits` always supplies enough). -/
def ndigAux : Nat → Nat → Nat
  | 0, _ => 1
  | f + 1, n => if n < 10 then 1 else ndigAux f (n / 10) + 1

/-- Number of decimal digits of a natural number; 0 has one digit. -/
def numDigits (n : Nat) : Nat := ndigAux (n + 1) n

/-- Round the rational `num / den` (with `den > 0`) to the nearest integer,
ties to even: the rounding used by the default decimal context. -/
def rndHE (num den : Int) : Int :=
  let q := Int.fdiv num den
  let r := num - q * den
  if 2 * r < den then q
  else if den < 2 * r then q + 1
  else if q % 2 = 0 then q else q + 1

/-- A Python `Decimal`: value is `c * 10 ^ e`.  The representation keeps the
exponent, as `Decimal` does (`Decimal 0.10` and `Decimal 0.1` differ). -/
structure Dec where
  c : Int
  e : Int
deriving DecidableEq, Repr

/-- Errors raised by `Decimal` arithmetic. -/
inductive DecErr where
  | divisionByZero
  | invalidOperation
deriving DecidableEq, Repr

/-- `Decimal._fix`: round a result to at most `PREC` significant digits,
half-even, carrying into the exponent on overflow to `10 ^ PREC`. -/
def Dec.fix (d : Dec) : Dec :=
  let dg := numDigits d.c.natAbs
  if dg ≤ PREC then d
  else
    let shift := dg - PREC
    let den : Int := (10 : Int) ^ shift
    let c1 := rndHE d.c den
    if c1.natAbs = 10 ^ PREC then ⟨c1.tdiv 10, d.e + shift + 1⟩
    else ⟨c1, d.e + shift⟩

/-- `Decimal.__add__`: exact sum at the smaller exponent, then `_fix`. -/
def Dec.add (a b : Dec) : Dec :=
  let e := min a.e b.e
  let ca := a.c * (10 : Int) ^ (a.e - e).toNat
  let cb := b.c * (10 : Int) ^ (b.e - e).toNat
  Dec.fix ⟨ca + cb, e⟩

/-- `Decimal.__sub__`: add the negated operand. -/
def Dec.sub (a b : Dec) : Dec := Dec.add a ⟨-b.c, b.e⟩

/-- `Decimal.__neg__` (with the context `_fix`). -/
def Dec.negD (a : Dec) : Dec := Dec.fix ⟨-a.c, a.e⟩

/-- `Decimal.__pos__` (with the context `_fix`). -/
def Dec.posD (a : Dec) : Dec := Dec.fix ⟨a.c, a.e⟩

/-- `Decimal.__mul__`: exact product, then `_fix`. -/
def Dec.mul (a b : Dec) : Dec := Dec.fix ⟨a.c * b.c, a.e + b.e⟩

/-- Strip trailing zero digits while raising the exponent, at most `k`
times: the exact-quotient normalization loop of `_divide`. -/
def reduceExact : Nat → Nat → Int → Nat × Int
  | 0, co, e => (co, e)
  | k + 1, co, e => if co % 10 = 0 then reduceExact k (co / 10) (e + 1) else (co, e)

/-- `Decimal.__truediv__`: compute `PREC + 1` significant digits of the
quotient, nudge an inexact result off multiples of 5 so that `_fix` rounds
half-even correctly, normalize an exact result toward the ideal exponent,
then `_fix`. -/
def Dec.div (a b : Dec) : Except DecErr Dec :=
  if b.c = 0 then
    if a.c = 0 then .error .invalidOperation else .error .divisionByZero
  else if a.c = 0 then
    .ok (Dec.fix ⟨0, a.e - b.e⟩)
  else
    let sign : Int := if (a.c < 0) = (b.c < 0) then 1 else -1
    let na := a.c.natAbs
    let nb := b.c.natAbs
    let shift : Int := (numDigits nb : Int) - (numDigits na : Int) + (PREC : Int) + 1
    let e0 : Int := a.e - b.e - shift
    let co := if 0 ≤ shift then na * 10 ^ shift.toNat / nb else na / (nb * 10 ^ (-shift).toNat)
    let rem := if 0 ≤ shift then na * 10 ^ shift.toNat % nb else na % (nb * 10 ^ (-shift).toNat)
    if rem ≠ 0 then
      let co1 := if co % 5 = 0 then co + 1 else co
      .ok (Dec.fix ⟨sign * co1, e0⟩)
    else
      let ideal : Int := a.e - b.e
      let ce := reduceExact (ideal - e0).toNat co e0
      .ok (Dec.fix ⟨sign * ce.1, ce.2⟩)

/-- `Decimal.__mod__`: remainder with the quotient truncated toward zero,
sign following the dividend, at the smaller exponent. -/
def Dec.modD (a b : Dec) : Except DecErr Dec :=
  if b.c = 0 then .error .invalidOperation
  else
    let e := min a.e b.e
    let ca := a.c * (10 : Int) ^ (a.e - e).toNat
    let cb := b.c * (10 : Int) ^ (b.e - e).toNat
    .ok (Dec.fix ⟨ca - cb * (Int.tdiv ca cb), e⟩)

/-- The exact integer value of a decimal, when it has one. -/
def Dec.intVal? (b : Dec) : Option Int :=
  if 0 ≤ b.e then some (b.c * (10 : Int) ^ b.e.toNat)
  else if b.c % ((10 : Int) ^ (-b.e).toNat) = 0 then
    some (Int.tdiv b.c ((10 : Int) ^ (-b.e).toNat))
  else none

/-- `Decimal.__pow__` for integral exponents (the only case the embedded
programs reach); a non-integral exponent is reported as an invalid
operation. -/
def Dec.powD (a b : Dec) : Except DecErr Dec :=
  match Dec.intVal? b with
  | none => .error .invalidOperation
  | some n =>
    if a.c = 0 then
      if n = 0 then .error .invalidOperation
      else if n < 0 then .error .divisionByZero
      else .ok (Dec.fix ⟨0, a.e * n⟩)
    else if 0 ≤ n then .ok (Dec.fix ⟨a.c ^ n.toNat, a.e * n⟩)
    else Dec.div ⟨1, 0⟩ ⟨a.c ^ (-n).toNat, a.e * (-n)⟩

/-- Coefficients aligned to the common (smaller) exponent, for value
comparison. -/
def Dec.aligned (a b : Dec) : Int × Int :=
  let e := min a.e b.e
  (a.c * (10 : Int) ^ (a.e - e).toNat, b.c * (10 : Int) ^ (b.e - e).toNat)

/-- Value equality of decimals (`Decimal.__eq__`). -/
def Dec.eqv (a b : Dec) : Bool := (Dec.aligned a b).1 == (Dec.aligned a b).2

/-- Value order of decimals (`Decimal.__lt__`). -/
def Dec.ltv (a b : Dec) : Bool := decide ((Dec.aligned a b).1 < (Dec.aligned a b).2)

/-- Value order of decimals (`Decimal.__le__`). -/
def Dec.lev (a b : Dec) : Bool := decide ((Dec.aligned a b).1 ≤ (Dec.aligned a b).2)

/-- A token tree from the external reader: a leaf is a token string, an
internal node is an ordered sequence of subtrees. -/
inductive Tree where
  | leaf (s : String)
  | list (ts : List Tree)
deriving Repr

/-- Whether a tree is an internal (list) node: `isinstance(x, list)`. -/
def Tree.isList : Tree → Bool
  | .leaf _ => false
  | .list _ => true

/-- The scoping switch `__scoping__` (`Scoping.LEXICAL` is the default). -/
inductive Scoping where
  | dynamic
  | lexical
deriving DecidableEq, Repr

/-- Binary operator kinds, one per `create_binop` call in the source.  `Not`
is generated by `create_binop` in the source even though the classifier
maps it to arity 1, so it appears here among the binary kinds. -/
inductive BinKind where
  | eq | ne | lt | gt | le | ge
  | add | sub | mul | div | mod | pow
  | and | or | notB | xor | isK
deriving DecidableEq, Repr

/-- Unary operator kinds, one per `create_unop` call in the source. -/
inductive UnKind where
  | pos | neg
deriving DecidableEq, Repr

/-- Built-in I/O function kinds, one per `create_pyfunc` call. -/
inductive PyfKind where
  | print | printf | printfs | format
deriving DecidableEq, Repr

/-- An environment as seen by a node: either a plain dict frame (referred to
by its index in the store) or a `ChainMap` whose members are themselves
environments (a member can be a nested `ChainMap`, which happens under
dynamic scoping). -/
inductive EnvM where
  | dictRef (r : Nat)
  | chain (maps : List EnvM)
deriving Repr

mutual

/-- The AST node hierarchy of `nodes.py`, one constructor per class.  `Set`,
`Setg`, `Setc`, `Call` and `TailCall` store their `Name` child as the bare
name string; `While` and `IfElse` carry the object identity (`oid`) that
Python exposes as `id(self)` and which their compiled jump labels embed;
`Lambda.__call__` returns the generated `Ufunc` class (`ufuncDef`), whose
instances (`ufuncObj`) hold the already-evaluated argument nodes. -/
inductive PNode where
  | nimpl (t : Tree)
  | comment (cs : List PNode)
  | suite (cs : List PNode)
  | setL (name : String) (value : PNode)
  | setG (name : String) (value : PNode)
  | setC (name : String) (value : PNode)
  | ret (value : PNode)
  | listN (vals : List PNode)
  | params (ps : List String)
  | consN (a b : PNode)
  | carN (x : PNode)
  | cdrN (x : PNode)
  | cell (a b : PNode)
  | assertN (cond msg : PNode)
  | binop (k : BinKind) (l r : PNode)
  | unop (k : UnKind) (a : PNode)
  | pyfunc (k : PyfKind) (args : List PNode)
  | var (name : String)
  | atom (v : PyVal)
  | nilN
  | trueN
  | falseN
  | whileN (oid : Nat) (cond body : PNode)
  | ifElse (oid : Nat) (cond ifb : PNode) (elseb : Option PNode)
  | callN (name : String) (args : List PNode)
  | tailCallN (name : String) (args : List PNode)
  | lambdaN (ps : List String) (body : PNode)
  | readN
  | parseN (expr : PNode)
  | evalN (expr : PNode)
  | ufuncDef (ps : List String) (body : PNode) (closures : List EnvM)
  | ufuncObj (ps : List String) (body : PNode) (closures : List EnvM) (args : List PNode)
  | envV (env : EnvM)

/-- Unwrapped Python values, as produced by the `.value` properties: decimal
numbers, strings, booleans, `None` (the value of `Nil`), pair tuples (the
value of a `Cell`), wrapped nodes (the value of an `Atom` holding a node,
or a `Ufunc` whose value is itself), and tuples of parameter names (the
value of a `Params` node). -/
inductive PyVal where
  | num (d : Dec)
  | str (s : String)
  | bool (b : Bool)
  | none
  | tup (a b : PyVal)
  | node (n : PNode)
  | strs (l : List String)

end

/-- Errors that node classification or evaluation can raise.  `programError`
is the user-facing error of the source; the others model the Python
exception kinds that specific code paths raise. -/
inductive PErr where
  | programError (v : PyVal)
  | typeError
  | valueError
  | keyError
  | indexError
  | attrError
  | notImplErr
  | syntaxError
  | stopIteration
  | invalidOperation
  | divisionByZero
  | outOfFuel

/-- Lift a decimal arithmetic error. -/
def PErr.ofDec : DecErr → PErr
  | .divisionByZero => .divisionByZero
  | .invalidOperation => .invalidOperation

/-- Whether an error is the user-facing `ProgramError`. -/
def PErr.isProgram : PErr → Bool
  | .programError _ => true
  | _ => false

/-- The store of dict frames: Python dict objects are aliased, so frames are
kept here and referred to by index.  `stdin` models the remaining lines of
standard input consumed by `Read`. -/
structure St where
  nextRef : Nat
  frames : List (Nat × List (String × PNode))
  stdin : List String

/-- Update a binding in a dict frame, preserving insertion order as a Python
dict does. -/
def frameSet : List (String × PNode) → String → PNode → List (String × PNode)
  | [], k, v => [(k, v)]
  | (k0, v0) :: rest, k, v =>
    if k0 = k then (k0, v) :: rest else (k0, v0) :: frameSet rest k v

/-- Update a frame in the store. -/
def refSet : List (Nat × List (String × PNode)) → Nat → List (String × PNode) →
    List (Nat × List (String × PNode))
  | [], r, f => [(r, f)]
  | (r0, f0) :: rest, r, f =>
    if r0 = r then (r0, f) :: rest else (r0, f0) :: refSet rest r f

/-- The frame a reference denotes (an absent reference reads as empty). -/
def St.frameOf (st : St) (r : Nat) : List (String × PNode) :=
  (st.frames.lookup r).getD []

/-- Write a whole frame back to the store. -/
def St.writeFrame (st : St) (r : Nat) (f : List (String × PNode)) : St :=
  { st with frames := refSet st.frames r f }

/-- Allocate a fresh dict frame, returning its reference. -/
def St.alloc (st : St) (f : List (String × PNode)) : Nat × St :=
  (st.nextRef, { st with nextRef := st.nextRef + 1, frames := (st.nextRef, f) :: st.frames })

mutual

/-- `env[name]` lookup: a dict frame reads its binding; a `ChainMap`
searches its member maps in order, first match wins. -/
def envLookup (st : St) : EnvM → String → Option PNode
  | .dictRef r, k => (st.frameOf r).lookup k
  | .chain ms, k => envLookupL st ms k

/-- Lookup across the member maps of a `ChainMap`. -/
def envLookupL (st : St) : List EnvM → String → Option PNode
  | [], _ => Option.none
  | m :: ms, k =>
    match envLookup st m k with
    | some v => some v
    | Option.none => envLookupL st ms k

end

/-- `env[name] = value`: a dict frame is updated in the store; a `ChainMap`
writes into its first member map (`ChainMap.__setitem__`). -/
def envSet (st : St) : EnvM → String → PNode → St
  | .dictRef r, k, v => st.writeFrame r (frameSet (st.frameOf r) k v)
  | .chain [], _, _ => st
  | .chain (m :: _), k, v => envSet st m k v

deriving instance Repr for PNode, PyVal
deriving instance Repr for St

/-- Python `repr` quoting of a name, as in the `unknown name` message. -/
def sq (s : String) : String := "\x27" ++ s ++ "\x27"

/-- Decimal digit character. -/
def digitCh (n : Nat) : Char := Char.ofNat (48 + n)

/-- Decimal digit string of a natural number (fuel-bounded helper). -/
def natDigitsStrAux : Nat → Nat → String
  | 0, _ => ""
  | f + 1, n =>
    if n < 10 then String.mk [digitCh n]
    else natDigitsStrAux f (n / 10) ++ String.mk [digitCh (n % 10)]

/-- Decimal digit string of a natural number. -/
def natDigitsStr (n : Nat) : String := natDigitsStrAux (n + 1) n

/-- `Decimal.__str__`: the to-scientific-string conversion of the decimal
specification. -/
def decToStr (d : Dec) : String :=
  let sgn := if d.c < 0 then "-" else ""
  let ds := natDigitsStr d.c.natAbs
  let leftdigits : Int := d.e + ds.length
  let dotplace : Int := if d.e ≤ 0 ∧ -6 < leftdigits then leftdigits else 1
  let body :=
    if dotplace ≤ 0 then
      "0." ++ String.mk (List.replicate (-dotplace).toNat (digitCh 0)) ++ ds
    else if (ds.length : Int) ≤ dotplace then
      ds ++ String.mk (List.replicate (dotplace - ds.length).toNat (digitCh 0))
    else ds.take dotplace.toNat ++ "." ++ ds.drop dotplace.toNat
  let ex :=
    if leftdigits = dotplace then ""
    else "E" ++ (if 0 ≤ leftdigits - dotplace then "+" else "") ++ toString (leftdigits - dotplace)
  sgn ++ body ++ ex

/-- Python truthiness of an unwrapped value. -/
def pyTruthy : PyVal → Bool
  | .num d => d.c != 0
  | .str s => s != ""
  | .bool b => b
  | .none => false
  | .tup _ _ => true
  | .node _ => true
  | .strs l => !l.isEmpty

/-- The `.value` property of a node: `Atom`/`Nil`/`True_`/`False_` unwrap
their payload, a `Cell` yields the pair of its children values, `Params`
its name tuple, the three `Set` forms and `Ret` expose their value child
node, and a `Ufunc` is its own value.  Every other node class has no
`value` attribute, so reading it raises `AttributeError`. -/
def valueA : PNode → Except PErr PyVal
  | .atom v => .ok v
  | .nilN => .ok .none
  | .trueN => .ok (.bool true)
  | .falseN => .ok (.bool false)
  | .cell a b => do
      let x ← valueA a
      let y ← valueA b
      .ok (.tup x y)
  | .params ps => .ok (.strs ps)
  | .setL _ v => .ok (.node v)
  | .setG _ v => .ok (.node v)
  | .setC _ v => .ok (.node v)
  | .ret v => .ok (.node v)
  | .ufuncDef ps b c => .ok (.node (.ufuncDef ps b c))
  | .ufuncObj ps b c a => .ok (.node (.ufuncObj ps b c a))
  | _ => .error .attrError

/-- Unwrap a list of evaluated nodes, left to right. -/
def valsA : List PNode → Except PErr (List PyVal)
  | [] => .ok []
  | x :: xs => do
      let v ← valueA x
      let vs ← valsA xs
      .ok (v :: vs)

/-- Booleans are ints in Python: coerce for mixed arithmetic/comparison. -/
def boolDec (b : Bool) : Dec := if b then ⟨1, 0⟩ else ⟨0, 0⟩

/-- `operator.eq` on the unwrapped values the programs produce.  Values of
different types compare unequal; nodes compare by object identity, which
distinct evaluation results never share. -/
def pyEqB : PyVal → PyVal → Bool
  | .num a, .num b => Dec.eqv a b
  | .num a, .bool b => Dec.eqv a (boolDec b)
  | .bool a, .num b => Dec.eqv (boolDec a) b
  | .bool a, .bool b => a == b
  | .str a, .str b => a == b
  | .none, .none => true
  | .tup a b, .tup c d => pyEqB a c && pyEqB b d
  | .strs a, .strs b => a == b
  | _, _ => false

/-- Lexicographic order on lists of strings (tuple comparison). -/
def strsLt : List String → List String → Bool
  | [], [] => false
  | [], _ :: _ => true
  | _ :: _, [] => false
  | a :: asR, b :: bs => if a = b then strsLt asR bs else decide (a < b)

/-- `operator.lt`: numbers (with bool coercion) by value, strings by code
points, tuples lexicographically; other mixes raise `TypeError`. -/
def pyLtB : PyVal → PyVal → Except PErr Bool
  | .num a, .num b => .ok (Dec.ltv a b)
  | .num a, .bool b => .ok (Dec.ltv a (boolDec b))
  | .bool a, .num b => .ok (Dec.ltv (boolDec a) b)
  | .bool a, .bool b => .ok (Dec.ltv (boolDec a) (boolDec b))
  | .str a, .str b => .ok (decide (a < b))
  | .tup a b, .tup c d =>
      if pyEqB a c then pyLtB b d else pyLtB a c
  | .strs a, .strs b => .ok (strsLt a b)
  | _, _ => .error .typeError

/-- `operator.le`, mirroring `pyLtB`. -/
def pyLeB : PyVal → PyVal → Except PErr Bool
  | .num a, .num b => .ok (Dec.lev a b)
  | .num a, .bool b => .ok (Dec.lev a (boolDec b))
  | .bool a, .num b => .ok (Dec.lev (boolDec a) b)
  | .bool a, .bool b => .ok (Dec.lev (boolDec a) (boolDec b))
  | .str a, .str b => .ok (decide (a ≤ b))
  | .tup a b, .tup c d =>
      if pyEqB a c then pyLeB b d else pyLtB a c
  | .strs a, .strs b => .ok (strsLt a b || a == b)
  | _, _ => .error .typeError

/-- Numeric view of a value (`Decimal` or a coerced bool). -/
def asNum : PyVal → Option Dec
  | .num d => some d
  | .bool b => some (boolDec b)
  | _ => Option.none

/-- `operator.add`: numeric addition or string concatenation. -/
def pyAdd : PyVal → PyVal → Except PErr PyVal
  | .str a, .str b => .ok (.str (a ++ b))
  | a, b =>
    match asNum a, asNum b with
    | some x, some y => .ok (.num (Dec.add x y))
    | _, _ => .error .typeError

/-- Numeric-only binary operation helper. -/
def numOp (f : Dec → Dec → Dec) (a b : PyVal) : Except PErr PyVal :=
  match asNum a, asNum b with
  | some x, some y => .ok (.num (f x y))
  | _, _ => .error .typeError

/-- Numeric-only fallible binary operation helper. -/
def numOpE (f : Dec → Dec → Except DecErr Dec) (a b : PyVal) : Except PErr PyVal :=
  match asNum a, asNum b with
  | some x, some y =>
    match f x y with
    | .ok d => .ok (.num d)
    | .error e => .error (PErr.ofDec e)
  | _, _ => .error .typeError

/-- Bitwise boolean operation (`operator.and_`/`or_`/`xor` on bools); the
decimal operands of the programs do not support these and raise
`TypeError`. -/
def boolOp (f : Bool → Bool → Bool) (a b : PyVal) : Except PErr PyVal :=
  match a, b with
  | .bool x, .bool y => .ok (.bool (f x y))
  | _, _ => .error .typeError

/-- Apply the native operation of a `create_binop`-generated class.  `Not`
was generated by `create_binop` over the unary `operator.not_`, so applying
it to two operands raises `TypeError`. -/
def applyBin : BinKind → PyVal → PyVal → Except PErr PyVal
  | .eq, a, b => .ok (.bool (pyEqB a b))
  | .ne, a, b => .ok (.bool (!pyEqB a b))
  | .lt, a, b => do .ok (.bool (← pyLtB a b))
  | .gt, a, b => do .ok (.bool (← pyLtB b a))
  | .le, a, b => do .ok (.bool (← pyLeB a b))
  | .ge, a, b => do .ok (.bool (← pyLeB b a))
  | .add, a, b => pyAdd a b
  | .sub, a, b => numOp Dec.sub a b
  | .mul, a, b => numOp Dec.mul a b
  | .div, a, b => numOpE Dec.div a b
  | .mod, a, b => numOpE Dec.modD a b
  | .pow, a, b => numOpE Dec.powD a b
  | .and, a, b => boolOp (fun x y => x && y) a b
  | .or, a, b => boolOp (fun x y => x || y) a b
  | .notB, _, _ => .error .typeError
  | .xor, a, b => boolOp (fun x y => x != y) a b
  | .isK, a, b =>
    match a, b with
    | .none, .none => .ok (.bool true)
    | .bool x, .bool y => .ok (.bool (x == y))
    | _, _ => .ok (.bool false)

/-- Apply the native operation of a `create_unop`-generated class. -/
def applyUn : UnKind → PyVal → Except PErr PyVal
  | .pos, v =>
    match asNum v with
    | some x => .ok (.num (Dec.posD x))
    | Option.none => .error .typeError
  | .neg, v =>
    match asNum v with
    | some x => .ok (.num (Dec.negD x))
    | Option.none => .error .typeError

/-- `str` of an unwrapped value (`format` with one argument). -/
def pyToStr : PyVal → String
  | .num d => decToStr d
  | .str s => s
  | .bool b => if b then "True" else "False"
  | .none => "None"
  | .tup _ _ => "(...)"
  | .node _ => "<node>"
  | .strs _ => "(...)"

/-- Apply a `create_pyfunc`-generated built-in.  The `print` family writes
to standard output, which the embedding does not observe, and returns
`None`; `format` stringifies its argument. -/
def applyPyf : PyfKind → List PyVal → Except PErr PyVal
  | .print, _ => .ok .none
  | .printf, [] => .error .typeError
  | .printf, .str _ :: _ => .ok .none
  | .printf, _ => .error .attrError
  | .printfs, [] => .error .typeError
  | .printfs, [_] => .error .typeError
  | .printfs, .str _ :: _ :: _ => .ok .none
  | .printfs, _ => .error .attrError
  | .format, [v] => .ok (.str (pyToStr v))
  | .format, [v, .str ""] => .ok (.str (pyToStr v))
  | .format, _ => .error .typeError

/-- Nodes whose `__call__` returns `self` (used on the `Call` path for a
callee bound to a non-`Ufunc` value). -/
def selfRet : PNode → Bool
  | .atom _ => true
  | .cell _ _ => true
  | .nilN => true
  | .trueN => true
  | .falseN => true
  | .params _ => true
  | _ => false

/-- `dict(zip(params, args))`: the fresh local frame of a `Ufunc` call. -/
def zipFrame (ps : List String) (args : List PNode) : List (String × PNode) :=
  (ps.zip args).foldl (fun f kv => frameSet f kv.1 kv.2) []

/-- Evaluation context: the module-level scoping switch and the external
reader invoked by the `Parse` form. -/
structure Ctx where
  sc : Scoping
  reader : String → Except PErr PNode

mutual

/-- The tree-walking evaluator: `node(env)` for each node class, threading
the frame store.  Recursion is fuel-bounded; every recursive step consumes
one unit. -/
def evalFn (ctx : Ctx) : Nat → PNode → EnvM → St → Except PErr (PNode × St)
  | 0, _, _, _ => .error .outOfFuel
  | fuel + 1, n, env, st =>
    match n with
    | .nimpl _ => .error .notImplErr
    | .comment _ => .ok (.nilN, st)
    | .suite cs => evalSuite ctx fuel cs .nilN env st
    | .setL nm v => do
        let (vv, st1) ← evalFn ctx fuel v env st
        .ok (vv, envSet st1 env nm vv)
    | .setG nm v => do
        let (vv, st1) ← evalFn ctx fuel v env st
        match env with
        | .chain ms => .ok (vv, envSet st1 ((ms.getLast?).getD (.dictRef 0)) nm vv)
        | _ => .ok (vv, envSet st1 env nm vv)
    | .setC nm v => do
        let (vv, st1) ← evalFn ctx fuel v env st
        match env with
        | .chain ms =>
          match ms.get? 1 with
          | some m => .ok (vv, envSet st1 m nm vv)
          | Option.none => .error .indexError
        | _ => .ok (vv, envSet st1 env nm vv)
    | .ret v => evalFn ctx fuel v env st
    | .listN vs => do
        let (xs, st1) ← evalL ctx fuel vs env st
        match xs.reverse with
        | [] => .error .indexError
        | v0 :: rest => .ok (rest.foldl (fun rv v => PNode.cell v rv) (PNode.cell v0 .nilN), st1)
    | .params ps => .ok (.params ps, st)
    | .consN a b => do
        let (av, st1) ← evalFn ctx fuel a env st
        let (bv, st2) ← evalFn ctx fuel b env st1
        .ok (.cell av bv, st2)
    | .carN x => do
        let (v, st1) ← evalFn ctx fuel x env st
        match v with
        | .cell a _ => .ok (a, st1)
        | .consN a _ => .ok (a, st1)
        | _ => .error .attrError
    | .cdrN x => do
        let (v, st1) ← evalFn ctx fuel x env st
        match v with
        | .cell _ b => .ok (b, st1)
        | .consN _ b => .ok (b, st1)
        | _ => .error .attrError
    | .cell a b => .ok (.cell a b, st)
    | .assertN c m => do
        let (cv, st1) ← evalFn ctx fuel c env st
        let cpv ← valueA cv
        if pyTruthy cpv then .ok (.nilN, st1)
        else do
          let (mv, _st2) ← evalFn ctx fuel m env st1
          let mpv ← valueA mv
          .error (.programError mpv)
    | .binop k l r => do
        let (lv, st1) ← evalFn ctx fuel l env st
        let (rv, st2) ← evalFn ctx fuel r env st1
        let lpv ← valueA lv
        let rpv ← valueA rv
        let res ← applyBin k lpv rpv
        .ok (.atom res, st2)
    | .unop k a => do
        let (av, st1) ← evalFn ctx fuel a env st
        let apv ← valueA av
        let res ← applyUn k apv
        .ok (.atom res, st1)
    | .pyfunc k args => do
        let (avs, st1) ← evalL ctx fuel args env st
        let pvs ← valsA avs
        let res ← applyPyf k pvs
        .ok (.atom res, st1)
    | .var nm =>
        match envLookup st env nm with
        | some v => evalFn ctx fuel v env st
        | Option.none => .error (.programError (.str ("unknown name " ++ sq nm)))
    | .atom v => .ok (.atom v, st)
    | .nilN => .ok (.nilN, st)
    | .trueN => .ok (.trueN, st)
    | .falseN => .ok (.falseN, st)
    | .whileN _ c b => evalWhile ctx fuel c b .nilN env st
    | .ifElse _ c ib eb => do
        let (cv, st1) ← evalFn ctx fuel c env st
        let cpv ← valueA cv
        if pyTruthy cpv then evalFn ctx fuel ib env st1
        else
          match eb with
          | some e => evalFn ctx fuel e env st1
          | Option.none => .ok (.nilN, st1)
    | .callN nm args => evalCall ctx fuel nm args env st
    | .tailCallN nm args => evalCall ctx fuel nm args env st
    | .lambdaN ps body =>
        match env with
        | .chain ms => .ok (.ufuncDef ps body ms.dropLast, st)
        | _ => .ok (.ufuncDef ps body [], st)
    | .readN =>
        match envLookup st env "--stdin" with
        | some v => evalFn ctx fuel v env st
        | Option.none =>
          match st.stdin with
          | [] => .error .stopIteration
          | l :: rest => .ok (.atom (.str l), { st with stdin := rest })
    | .parseN e => do
        let (ev, st1) ← evalFn ctx fuel e env st
        let pv ← valueA ev
        match pv with
        | .str code => do
            let nd ← ctx.reader code
            .ok (.atom (.node nd), st1)
        | _ => .error .typeError
    | .evalN e => do
        let (ev, st1) ← evalFn ctx fuel e env st
        let pv ← valueA ev
        match pv with
        | .node nd => evalFn ctx fuel nd env st1
        | _ => .error .typeError
    | .ufuncDef ps body cls => .ok (.ufuncObj ps body cls [.envV env], st)
    | .ufuncObj ps body cls args => applyU ctx fuel ps body cls args env st
    | .envV _ => .error .typeError

/-- Evaluate a list of argument nodes left to right. -/
def evalL (ctx : Ctx) : Nat → List PNode → EnvM → St → Except PErr (List PNode × St)
  | 0, _, _, _ => .error .outOfFuel
  | _ + 1, [], _, st => .ok ([], st)
  | fuel + 1, x :: xs, env, st => do
      let (v, st1) ← evalFn ctx fuel x env st
      let (vs, st2) ← evalL ctx fuel xs env st1
      .ok (v :: vs, st2)

/-- `Suite.__call__`: children in order, last value (or `Nil`) as result. -/
def evalSuite (ctx : Ctx) : Nat → List PNode → PNode → EnvM → St → Except PErr (PNode × St)
  | 0, _, _, _, _ => .error .outOfFuel
  | _ + 1, [], rv, _, st => .ok (rv, st)
  | fuel + 1, x :: xs, _, env, st => do
      let (v, st1) ← evalFn ctx fuel x env st
      evalSuite ctx fuel xs v env st1

/-- `While.__call__`: re-test the condition, tracking the last body value. -/
def evalWhile (ctx : Ctx) : Nat → PNode → PNode → PNode → EnvM → St → Except PErr (PNode × St)
  | 0, _, _, _, _, _ => .error .outOfFuel
  | fuel + 1, c, b, rv, env, st => do
      let (cv, st1) ← evalFn ctx fuel c env st
      let cpv ← valueA cv
      if pyTruthy cpv then do
        let (rv1, st2) ← evalFn ctx fuel b env st1
        evalWhile ctx fuel c b rv1 env st2
      else .ok (rv, st1)

/-- `Call.__call__` (also inherited unchanged by `TailCall`): evaluate the
arguments, resolve the callee, apply it to the evaluated argument nodes,
and evaluate the returned node in the current environment; an unresolved
name raises `ProgramError`. -/
def evalCall (ctx : Ctx) : Nat → String → List PNode → EnvM → St → Except PErr (PNode × St)
  | 0, _, _, _, _ => .error .outOfFuel
  | fuel + 1, nm, args, env, st => do
      let (avs, st1) ← evalL ctx fuel args env st
      match envLookup st1 env nm with
      | Option.none => .error (.programError (.str ("unknown name " ++ sq nm)))
      | some (.ufuncDef ps body cls) => evalFn ctx fuel (.ufuncObj ps body cls avs) env st1
      | some v =>
        if avs.length == 1 && selfRet v then evalFn ctx fuel v env st1
        else .error .typeError

/-- `Ufunc.__call__`: zip parameter names with the stored argument nodes
into a fresh local frame, chain it under the captured closure frames and
— in lexical mode with a chained caller — the last frame of the caller, or
in every other case the whole caller environment, then evaluate the
body. -/
def applyU (ctx : Ctx) : Nat → List String → PNode → List EnvM → List PNode → EnvM → St →
    Except PErr (PNode × St)
  | 0, _, _, _, _, _, _ => .error .outOfFuel
  | fuel + 1, ps, body, cls, args, env, st =>
      let (r, st1) := st.alloc (zipFrame ps args)
      match env, ctx.sc with
      | .chain ms, .lexical =>
          evalFn ctx fuel body (.chain (.dictRef r :: cls ++ [(ms.getLast?).getD (.dictRef 0)])) st1
      | _, _ =>
          evalFn ctx fuel body (.chain (.dictRef r :: cls ++ [env])) st1

end

/-- Native callables referenced by `CallPyFunc` opcodes, one per lambda or
function object the source passes. -/
inductive PyFn where
  | buildList
  | consFn
  | carFn
  | cdrFn
  | checkAssert
  | binFn (k : BinKind)
  | unFn (k : UnKind)
  | pyfFn (k : PyfKind)
  | readerFn
deriving DecidableEq, Repr

/-- The opcodes of `insts.py` as the compiler emits them. -/
inductive Opcode where
  | label (s : String)
  | pushImm (v : PyVal)
  | pushVar (n : String)
  | popVar (n : String)
  | pushGlobalVar (n : String)
  | popGlobalVar (n : String)
  | pushClosureVar (n : String)
  | popClosureVar (n : String)
  | jumpIfFalse (l : String)
  | jumpAlways (l : String)
  | pushFunc (n : String)
  | pushTailFunc (n : String)
  | popFunc
  | createFunc (ps : List String) (body : PNode)
  | callPyFunc (f : PyFn) (arity : Nat)
  | readInput
  | evaluate
  | noop
  | missing (n : PNode)
deriving Repr

/-- Lowercase hexadecimal digit character. -/
def hexDigitCh (n : Nat) : Char := Char.ofNat (if n < 10 then 48 + n else 87 + n)

/-- Hex digit string (fuel-bounded helper; empty for zero). -/
def hexCore : Nat → Nat → String
  | 0, _ => ""
  | f + 1, n =>
    if n = 0 then "" else hexCore f (n / 16) ++ String.mk [hexDigitCh (n % 16)]

/-- Python `hex`: lowercase hex with the `0x` marker. -/
def hexS (n : Nat) : String := if n = 0 then "0x0" else "0x" ++ hexCore (n + 1) n

/-- `While.__iter__` loop-start label: derived from `id(self)`. -/
def whileStartLbl (oid : Nat) : String := "loop-start-" ++ hexS oid

/-- `While.__iter__` loop-end label: derived from `id(self)`. -/
def whileEndLbl (oid : Nat) : String := "loop-end-" ++ hexS oid

/-- `IfElse.__iter__` else-branch label: derived from `id(self)`. -/
def elsebodyLbl (oid : Nat) : String := "elsebody-" ++ hexS oid

/-- `IfElse.__iter__` join label: derived from `id(self)`.  The source also
computes an `ifbody-` label that it never emits. -/
def endLbl (oid : Nat) : String := "end-" ++ hexS oid

mutual

/-- The instruction compiler: the opcode sequence yielded by the
`__iter__` of each node class.  Classes without an `__iter__` override inherit the base
`Node.__iter__`, which yields `Missing(self)`. -/
def compileN : PNode → List Opcode
  | .nimpl t => [.missing (.nimpl t)]
  | .comment _ => [.noop]
  | .suite cs => (compileEach cs).flatten
  | .setL nm v => compileN v ++ [.popVar nm, .pushVar nm]
  | .setG nm v => compileN v ++ [.popGlobalVar nm, .pushGlobalVar nm]
  | .setC nm v => compileN v ++ [.popClosureVar nm, .pushClosureVar nm]
  | .ret v => compileN v ++ [.popFunc]
  | .listN vs => (compileEach vs).reverse.flatten ++ [.callPyFunc .buildList vs.length]
  | .params ps => [.missing (.params ps)]
  | .consN a b => compileN b ++ compileN a ++ [.callPyFunc .consFn 2]
  | .carN x => compileN x ++ [.callPyFunc .carFn 1]
  | .cdrN x => compileN x ++ [.callPyFunc .cdrFn 1]
  | .cell a b => [.missing (.cell a b)]
  | .assertN c m => compileN m ++ compileN c ++ [.callPyFunc .checkAssert 2]
  | .binop k l r => compileN r ++ compileN l ++ [.callPyFunc (.binFn k) 2]
  | .unop k a => compileN a ++ [.callPyFunc (.unFn k) 1]
  | .pyfunc k args => (compileEach args).reverse.flatten ++ [.callPyFunc (.pyfFn k) args.length]
  | .var nm => [.pushVar nm]
  | .atom v => [.pushImm v]
  | .nilN => [.pushImm .none]
  | .trueN => [.pushImm (.bool true)]
  | .falseN => [.pushImm (.bool false)]
  | .whileN oid c b =>
      [.label (whileStartLbl oid)] ++ compileN c ++ [.jumpIfFalse (whileEndLbl oid)] ++
        compileN b ++ [.jumpAlways (whileStartLbl oid), .label (whileEndLbl oid)]
  | .ifElse oid c ib eb =>
      compileN c ++
        (match eb with
          | some e =>
              [.jumpIfFalse (elsebodyLbl oid)] ++ compileN ib ++
                [.jumpAlways (endLbl oid), .label (elsebodyLbl oid)] ++ compileN e ++
                [.label (endLbl oid)]
          | Option.none => [.jumpIfFalse (endLbl oid)] ++ compileN ib ++ [.label (endLbl oid)])
  | .callN nm args => (compileEach args).reverse.flatten ++ [.pushFunc nm]
  | .tailCallN nm args => (compileEach args).reverse.flatten ++ [.pushTailFunc nm]
  | .lambdaN ps body => [.createFunc ps body]
  | .readN => [.readInput]
  | .parseN e => compileN e ++ [.callPyFunc .readerFn 1]
  | .evalN e => compileN e ++ [.evaluate]
  | .ufuncDef ps body cls => [.missing (.ufuncDef ps body cls)]
  | .ufuncObj ps body cls args => [.missing (.ufuncObj ps body cls args)]
  | .envV e => [.missing (.envV e)]

/-- Opcode sequences of a list of children, in order. -/
def compileEach : List PNode → List (List Opcode)
  | [] => []
  | x :: xs => compileN x :: compileEach xs

end

/-- The label names an opcode sequence defines. -/
def labelsOf (ops : List Opcode) : List String :=
  ops.filterMap fun op =>
    match op with
    | .label s => some s
    | _ => Option.none

/-- First character test (`str.startswith` with a one-character prefix). -/
def headIs (c : Char) (s : String) : Bool :=
  match s.data with
  | [] => false
  | c0 :: _ => c0 == c

/-- Last character test (`str.endswith` with a one-character suffix). -/
def lastIs (c : Char) (s : String) : Bool :=
  match s.data.getLast? with
  | some c0 => c0 == c
  | _ => false

/-- Drop the first character (`s[1:]`). -/
def strTail (s : String) : String := String.mk (s.data.drop 1)

/-- The numeric-literal test of the classifier: a full match of the regular
expression with optional sign, digits, optional dot, digits — which also
accepts the empty string and bare signs/dots. -/
def numRe (s : String) : Bool :=
  let cs :=
    match s.data with
    | '+' :: r => r
    | '-' :: r => r
    | r => r
  let r1 := cs.dropWhile Char.isDigit
  match r1 with
  | [] => true
  | '.' :: r2 => r2.all Char.isDigit
  | _ => false

/-- Numeric value of a digit list. -/
def digitsVal (l : List Char) : Nat := l.foldl (fun a c => 10 * a + (c.toNat - 48)) 0

/-- The `Decimal` constructor on a token string: sign, integer digits,
optional fraction; at least one digit is required, otherwise the
conversion is an invalid operation (as for `Decimal` of an empty or
sign-only string). -/
def decOfString (s : String) : Except PErr Dec :=
  let sg : Int := if headIs '-' s then -1 else 1
  let cs :=
    match s.data with
    | '+' :: r => r
    | '-' :: r => r
    | r => r
  let ip := cs.takeWhile Char.isDigit
  let rest := cs.dropWhile Char.isDigit
  match rest with
  | [] =>
    if ip.isEmpty then .error .invalidOperation
    else .ok ⟨sg * digitsVal ip, 0⟩
  | '.' :: fp =>
    if fp.all Char.isDigit then
      if ip.isEmpty && fp.isEmpty then .error .invalidOperation
      else .ok ⟨sg * digitsVal (ip ++ fp), -(fp.length : Int)⟩
    else .error .invalidOperation
  | _ => .error .invalidOperation

/-- Decode the characters of a Python string literal body. -/
def unescape : List Char → Option (List Char)
  | [] => some []
  | '\\' :: c :: rest =>
    let dc : List Char :=
      match c with
      | 'n' => ['\n']
      | 't' => ['\t']
      | 'r' => ['\r']
      | '\\' => ['\\']
      | '\x27' => ['\x27']
      | '"' => ['"']
      | '0' => ['\x00']
      | _ => ['\\', c]
    (unescape rest).map (dc ++ ·)
  | ['\\'] => Option.none
  | '"' :: _ => Option.none
  | c :: rest => (unescape rest).map (c :: ·)

/-- `ast.literal_eval` on a double-quoted token: strip the quotes and decode
escapes; a malformed literal is a syntax error. -/
def strLit (s : String) : Except PErr PyVal :=
  if s.length < 2 then .error .syntaxError
  else
    match unescape (s.data.drop 1).dropLast with
    | some cs => .ok (.str (String.mk cs))
    | Option.none => .error .syntaxError

/-- Token-to-class dispatch of the operator table `ops`, keyed by token and
operand count.  `not` maps to arity 1, but to the class `Not`, which
`create_binop` generated. -/
inductive OpCls where
  | un (k : UnKind)
  | bi (k : BinKind)
deriving DecidableEq, Repr

/-- The declarative operator table `ops` of `Node.parse`. -/
def opsTbl : String → Nat → Option OpCls
  | "+", 1 => some (.un .pos)
  | "+", 2 => some (.bi .add)
  | "-", 1 => some (.un .neg)
  | "-", 2 => some (.bi .sub)
  | "*", 2 => some (.bi .mul)
  | "/", 2 => some (.bi .div)
  | "%", 2 => some (.bi .mod)
  | "**", 2 => some (.bi .pow)
  | "and", 2 => some (.bi .and)
  | "or", 2 => some (.bi .or)
  | "not", 1 => some (.bi .notB)
  | "xor", 2 => some (.bi .xor)
  | _, _ => Option.none

/-- Membership in the operator table (`tree[0] in ops`). -/
def isOpTok (s : String) : Bool :=
  s == "+" || s == "-" || s == "*" || s == "/" || s == "%" || s == "**" ||
    s == "and" || s == "or" || s == "not" || s == "xor"

/-- Parameter names of a lambda: `Params.parse` splats its argument, so a
bare string becomes its characters and a list must hold name leaves. -/
def leavesOf : List Tree → Except PErr (List String)
  | [] => .ok []
  | .leaf s :: ts => do
      let ss ← leavesOf ts
      .ok (s :: ss)
  | .list _ :: _ => .error .typeError

/-- Parameter tree of a lambda, as `Params.parse` consumes it. -/
def paramsOf : Tree → Except PErr (List String)
  | .leaf s => .ok (s.data.map fun c => String.mk [c])
  | .list ts => leavesOf ts

mutual

/-- The tree classifier `Node.parse`.  It threads the allocation counter for
`While`/`IfElse` object identities, and returns the token tree as it stands
after classification, because the tail-call branch strips the `^` marker
from the head token in place.  Note the dead branch of the source: the
check `tree == false` sits after `return Var(tree)`, so the leaf `false`
classifies as a variable reference.  Recursion is fuel-bounded, as for the
evaluator. -/
def parseT : Nat → Tree → Nat → Except PErr (PNode × Tree × Nat)
  | 0, _, _ => .error .outOfFuel
  | _ + 1, .leaf s, n =>
    if numRe s then do
      let d ← decOfString s
      .ok (.atom (.num d), .leaf s, n)
    else if headIs '"' s && lastIs '"' s then do
      let v ← strLit s
      .ok (.atom v, .leaf s, n)
    else if s = "nil" then .ok (.nilN, .leaf s, n)
    else if s = "true" then .ok (.trueN, .leaf s, n)
    else .ok (.var s, .leaf s, n)
  | fuel + 1, .list ts, n =>
    if ts.all Tree.isList then do
      let (cs, ts1, n1) ← parseTL fuel ts n
      .ok (.suite cs, .list ts1, n1)
    else
      match ts with
      | [] => .error .typeError
      | t0 :: rest => parseForm fuel t0 rest n
termination_by structural fuel _ _ => fuel

/-- Classify a list of sibling subtrees in order (`Suite.parse`, argument
lists), threading mutation and the identity counter. -/
def parseTL : Nat → List Tree → Nat → Except PErr (List PNode × List Tree × Nat)
  | 0, _, _ => .error .outOfFuel
  | _ + 1, [], n => .ok ([], [], n)
  | fuel + 1, t :: ts, n => do
      let (p, t1, n1) ← parseT fuel t n
      let (ps, ts1, n2) ← parseTL fuel ts n1
      .ok (p :: ps, t1 :: ts1, n2)
termination_by structural fuel _ _ => fuel

/-- Three-element unpacking of a binary operator or comparison form. -/
def parseBinT : Nat → BinKind → String → List Tree → Nat → Except PErr (PNode × Tree × Nat)
  | 0, _, _, _, _ => .error .outOfFuel
  | fuel + 1, k, s0, [lt_, rt], n => do
      let (l, lt1, n1) ← parseT fuel lt_ n
      let (r, rt1, n2) ← parseT fuel rt n1
      .ok (.binop k l r, .list [.leaf s0, lt1, rt1], n2)
  | _ + 1, _, _, _, _ => .error .valueError
termination_by structural fuel _ _ _ _ => fuel

/-- Built-in I/O form: any number of arguments. -/
def parsePyfT : Nat → PyfKind → String → List Tree → Nat → Except PErr (PNode × Tree × Nat)
  | 0, _, _, _, _ => .error .outOfFuel
  | fuel + 1, k, s0, rest, n => do
      let (args, rest1, n1) ← parseTL fuel rest n
      .ok (.pyfunc k args, .list (.leaf s0 :: rest1), n1)
termination_by structural fuel _ _ _ _ => fuel

/-- The ordered head-token dispatch of `Node.parse` for a list tree that is
not a suite.  A non-string head passes the equality tests against the five
binding-form names and then raises `TypeError` at the unhashable membership
test `tree[0] in comparisons`. -/
def parseForm : Nat → Tree → List Tree → Nat → Except PErr (PNode × Tree × Nat)
  | 0, _, _, _ => .error .outOfFuel
  | _ + 1, .list _, _, _ => .error .typeError
  | fuel + 1, .leaf s0, rest, n =>
    if s0 = "set" then
      match rest with
      | [.leaf nm, vt] => do
          let (v, vt1, n1) ← parseT fuel vt n
          .ok (.setL nm v, .list [.leaf s0, .leaf nm, vt1], n1)
      | [.list _, _] => .error .typeError
      | _ => .error .valueError
    else if s0 = "setg" then
      match rest with
      | [.leaf nm, vt] => do
          let (v, vt1, n1) ← parseT fuel vt n
          .ok (.setG nm v, .list [.leaf s0, .leaf nm, vt1], n1)
      | [.list _, _] => .error .typeError
      | _ => .error .valueError
    else if s0 = "setc" then
      match rest with
      | [.leaf nm, vt] => do
          let (v, vt1, n1) ← parseT fuel vt n
          .ok (.setC nm v, .list [.leaf s0, .leaf nm, vt1], n1)
      | [.list _, _] => .error .typeError
      | _ => .error .valueError
    else if s0 = "ret" then
      match rest with
      | [vt] => do
          let (v, vt1, n1) ← parseT fuel vt n
          .ok (.ret v, .list [.leaf s0, vt1], n1)
      | _ => .error .valueError
    else if s0 = "lambda" then
      match rest with
      | [pt, bt] => do
          let ps ← paramsOf pt
          let (b, bt1, n1) ← parseT fuel bt n
          .ok (.lambdaN ps b, .list [.leaf s0, pt, bt1], n1)
      | _ => .error .valueError
    else if s0 = "==" then parseBinT fuel .eq s0 rest n
    else if s0 = "<>" then parseBinT fuel .ne s0 rest n
    else if s0 = "<" then parseBinT fuel .lt s0 rest n
    else if s0 = ">" then parseBinT fuel .gt s0 rest n
    else if s0 = "<=" then parseBinT fuel .le s0 rest n
    else if s0 = ">=" then parseBinT fuel .ge s0 rest n
    else if isOpTok s0 then
      match opsTbl s0 rest.length with
      | Option.none => .error .keyError
      | some (.un k) =>
        match rest with
        | [at_] => do
            let (a, at1, n1) ← parseT fuel at_ n
            .ok (.unop k a, .list [.leaf s0, at1], n1)
        | _ => .error .valueError
      | some (.bi k) => parseBinT fuel k s0 rest n
    else if s0 = "print" then parsePyfT fuel .print s0 rest n
    else if s0 = "printf" then parsePyfT fuel .printf s0 rest n
    else if s0 = "printfs" then parsePyfT fuel .printfs s0 rest n
    else if s0 = "format" then parsePyfT fuel .format s0 rest n
    else if s0 = "assert" then
      match rest with
      | [ct, mt] => do
          let (c, ct1, n1) ← parseT fuel ct n
          let (m, mt1, n2) ← parseT fuel mt n1
          .ok (.assertN c m, .list [.leaf s0, ct1, mt1], n2)
      | _ => .error .valueError
    else if s0 = "list" then
      match rest with
      | [] => .error .typeError
      | t1 :: ts1 => do
          let (vs, rest1, n1) ← parseTL fuel (t1 :: ts1) n
          .ok (.listN vs, .list (.leaf s0 :: rest1), n1)
    else if s0 = "cons" then
      match rest with
      | [at_, bt] => do
          let (a, at1, n1) ← parseT fuel at_ n
          let (b, bt1, n2) ← parseT fuel bt n1
          .ok (.consN a b, .list [.leaf s0, at1, bt1], n2)
      | _ => .error .valueError
    else if s0 = "car" then
      match rest with
      | [xt] => do
          let (x, xt1, n1) ← parseT fuel xt n
          .ok (.carN x, .list [.leaf s0, xt1], n1)
      | _ => .error .valueError
    else if s0 = "cdr" then
      match rest with
      | [xt] => do
          let (x, xt1, n1) ← parseT fuel xt n
          .ok (.cdrN x, .list [.leaf s0, xt1], n1)
      | _ => .error .valueError
    else if s0 = "if" then
      match rest with
      | [ct, it] => do
          let (c, ct1, n1) ← parseT fuel ct n
          let (i, it1, n2) ← parseT fuel it n1
          .ok (.ifElse n2 c i Option.none, .list [.leaf s0, ct1, it1], n2 + 1)
      | [ct, it, et] => do
          let (c, ct1, n1) ← parseT fuel ct n
          let (i, it1, n2) ← parseT fuel it n1
          let (e, et1, n3) ← parseT fuel et n2
          .ok (.ifElse n3 c i (some e), .list [.leaf s0, ct1, it1, et1], n3 + 1)
      | _ :: _ :: _ :: _ :: _ => .error .typeError
      | _ => .error .valueError
    else if s0 = "while" then
      match rest with
      | [] => .error .valueError
      | [_] => .error .typeError
      | [ct, bt] => do
          let (c, ct1, n1) ← parseT fuel ct n
          let (b, bt1, n2) ← parseT fuel bt n1
          .ok (.whileN n2 c b, .list [.leaf s0, ct1, bt1], n2 + 1)
      | ct :: bts => do
          let (c, ct1, n1) ← parseT fuel ct n
          let (bs, bts1, n2) ← parseTL fuel bts n1
          .ok (.whileN n2 c (.suite bs), .list (.leaf s0 :: ct1 :: bts1), n2 + 1)
    else if s0 = "parse" then
      match rest with
      | [et] => do
          let (e, et1, n1) ← parseT fuel et n
          .ok (.parseN e, .list [.leaf s0, et1], n1)
      | _ => .error .valueError
    else if s0 = "quoted" then
      match rest with
      | [] => .error .indexError
      | qt :: extra => do
          let (q, qt1, n1) ← parseT fuel qt n
          .ok (.atom (.node q), .list (.leaf s0 :: qt1 :: extra), n1)
    else if s0 = "eval" then
      match rest with
      | [et] => do
          let (e, et1, n1) ← parseT fuel et n
          .ok (.evalN e, .list [.leaf s0, et1], n1)
      | _ => .error .valueError
    else if s0 = "read" then .ok (.readN, .list (.leaf s0 :: rest), n)
    else
      match rest with
      | [] =>
        if headIs '^' s0 then
          .ok (.tailCallN (strTail s0) [], .list [.leaf (strTail s0)], n)
        else .ok (.callN s0 [], .list [.leaf s0], n)
      | t1 :: ts1 =>
        if headIs '^' s0 then do
          let (args, rest1, n1) ← parseTL fuel (t1 :: ts1) n
          .ok (.tailCallN (strTail s0) args, .list (.leaf (strTail s0) :: rest1), n1)
        else do
          let (args, rest1, n1) ← parseTL fuel (t1 :: ts1) n
          .ok (.callN s0 args, .list (.leaf s0 :: rest1), n1)
termination_by structural fuel _ _ _ => fuel

end

/-! ## Concrete fixtures used by the claim theorems -/

/-- The default module configuration: lexical scoping (`__scoping__ =
Scoping.LEXICAL`), with an external reader that no program of this
development consults. -/
def ctxL : Ctx := ⟨.lexical, fun _ => .error .typeError⟩

/-- The dynamic-scoping configuration. -/
def ctxD : Ctx := ⟨.dynamic, fun _ => .error .typeError⟩

/-- A store with two empty frames: 0 (a local frame) and 1 (the global
frame). -/
def st2 : St := ⟨2, [(0, []), (1, [])], []⟩

/-- A store with three empty frames: 0 (local), 2 (a captured closure
frame) and 1 (global). -/
def st3 : St := ⟨3, [(0, []), (1, []), (2, [])], []⟩

/-- Whether a node has a `car`/`cdr` attribute (only the `Cell` and `Cons`
classes define those properties). -/
def hasCarAttr : PNode → Bool
  | .cell _ _ => true
  | .consN _ _ => true
  | _ => false

example : Dec.add ⟨1, 0⟩ ⟨2, 0⟩ = ⟨3, 0⟩ := by decide
example : Dec.add ⟨1, -1⟩ ⟨2, -1⟩ = ⟨3, -1⟩ := by decide
example : Dec.div ⟨1, 0⟩ ⟨3, 0⟩ = .ok ⟨3333333333333333333333333333, -28⟩ := rfl
example : Dec.div ⟨10, 0⟩ ⟨2, 0⟩ = .ok ⟨5, 0⟩ := rfl
example : Dec.div ⟨2, 0⟩ ⟨3, 0⟩ = .ok ⟨6666666666666666666666666667, -28⟩ := rfl


/-! ## Claim theorems -/

/-- C1: the classifier maps the leaves `nil` and `true` to the singleton
nodes, but the `tree == false` test of `Node.parse` sits after the
`return Var(tree)` statement, so the leaf `false` is classified as a
variable-reference node, not the singleton false node. -/
theorem classify_false_leaf_yields_var :
    parseT 9 (.leaf "nil") 0 = .ok (.nilN, .leaf "nil", 0) ∧
    parseT 9 (.leaf "true") 0 = .ok (.trueN, .leaf "true", 0) ∧
    parseT 9 (.leaf "false") 0 = .ok (.var "false", .leaf "false", 0) ∧
    PNode.var "false" ≠ PNode.falseN :=
  ⟨rfl, rfl, rfl, fun h => PNode.noConfusion h⟩

/-- C2: a variable reference unbound in every frame of the chain raises
`ProgramError`; but the program `(assert false "boom")`, parsed and
evaluated in an environment with no bindings, raises `ProgramError`
carrying the message `unknown name` quoting `false` rather than `boom`,
because the classifier turns the `false` leaf into a variable reference
(the dead branch of `Node.parse`) and `Assert` evaluates its condition
first. -/
theorem assert_false_boom_raises_unknown_name :
    evalFn ctxL 20 (.var "g") (.chain [.dictRef 0, .dictRef 1]) st2
      = .error (.programError (.str ("unknown name " ++ sq "g"))) ∧
    parseT 9 (.list [.leaf "assert", .leaf "false", .leaf "\"boom\""]) 0
      = .ok (.assertN (.var "false") (.atom (.str "boom")),
          .list [.leaf "assert", .leaf "false", .leaf "\"boom\""], 0) ∧
    evalFn ctxL 20 (.assertN (.var "false") (.atom (.str "boom")))
        (.chain [.dictRef 0, .dictRef 1]) st2
      = .error (.programError (.str ("unknown name " ++ sq "false"))) ∧
    PyVal.str ("unknown name " ++ sq "false") ≠ PyVal.str "boom" :=
  ⟨rfl, rfl, rfl, by simp [sq]⟩

/-- C3 counterexample: in a chained environment with a local frame (0), no
captured-closure frame, and the global frame (1) last, the closure-set
form writes its binding into `maps[1]`, which is the global frame itself —
not a captured-closure frame distinct from it. -/
theorem setc_zero_closures_writes_global :
    evalFn ctxL 5 (.setC "x" (.atom (.num ⟨1, 0⟩))) (.chain [.dictRef 0, .dictRef 1]) st2
      = .ok (.atom (.num ⟨1, 0⟩), ⟨2, [(0, []), (1, [("x", .atom (.num ⟨1, 0⟩))])], []⟩) ∧
    [EnvM.dictRef 0, EnvM.dictRef 1].getLast? = some (EnvM.dictRef 1) :=
  ⟨rfl, rfl⟩

/-- C4 counterexample: evaluating a lambda in the chain of frames 0 (local)
and 1 (global) captures frame 0 — the innermost frame — rather than the
frames other than the innermost; and invoking a closure under lexical
scoping chains the fresh local frame onto the call-site global frame, so a
body reference to a name bound only there succeeds instead of failing. -/
theorem lambda_capture_counterexample :
    evalFn ctxL 5 (.lambdaN ["p"] (.var "z")) (.chain [.dictRef 0, .dictRef 1]) st2
      = .ok (.ufuncDef ["p"] (.var "z") [.dictRef 0], st2) ∧
    [EnvM.dictRef 0] ≠ [EnvM.dictRef 1] ∧
    evalFn ctxL 20 (.callN "f" []) (.chain [.dictRef 0, .dictRef 1])
      ⟨2, [(0, [("f", .ufuncDef [] (.var "z") [])]), (1, [("z", .atom (.num ⟨7, 0⟩))])], []⟩
      = .ok (.atom (.num ⟨7, 0⟩),
        ⟨3, [(2, []), (0, [("f", .ufuncDef [] (.var "z") [])]),
             (1, [("z", .atom (.num ⟨7, 0⟩))])], []⟩) :=
  ⟨rfl, by simp, rfl⟩

/-- C5 counterexample: `car` of a number atom and `cdr` of `nil` fail with
`AttributeError` (there is no `car`/`cdr` attribute on those nodes), which
is not the `ProgramError` kind. -/
theorem car_non_pair_attr_error :
    evalFn ctxL 5 (.carN (.atom (.num ⟨5, 0⟩))) (.dictRef 0) st2 = .error .attrError ∧
    evalFn ctxL 5 (.cdrN .nilN) (.dictRef 0) st2 = .error .attrError ∧
    PErr.attrError.isProgram = false :=
  ⟨rfl, rfl, rfl⟩

/-- C6: `(+ 1 2)` parses to the binary add node and evaluates to the
decimal 3 (the same decimal the literal `3` converts to); `(- 5)` is
dispatched by arity to the unary negation node and evaluates to -5;
`(/ 1 3)` evaluates to the 28-significant-digit decimal
0.3333333333333333333333333333, whose value differs from the binary
double-precision approximation of 1/3 (6004799503160661 / 2^54, compared
here by cross-multiplication); and decimal arithmetic and comparison stay
exact where binary floats do not: `(== (+ 0.1 0.2) 0.3)` evaluates to
true. -/
theorem arith_decimal_semantics :
    parseT 9 (.list [.leaf "+", .leaf "1", .leaf "2"]) 0
      = .ok (.binop .add (.atom (.num ⟨1, 0⟩)) (.atom (.num ⟨2, 0⟩)),
          .list [.leaf "+", .leaf "1", .leaf "2"], 0) ∧
    evalFn ctxL 20 (.binop .add (.atom (.num ⟨1, 0⟩)) (.atom (.num ⟨2, 0⟩)))
        (.dictRef 0) ⟨1, [(0, [])], []⟩
      = .ok (.atom (.num ⟨3, 0⟩), ⟨1, [(0, [])], []⟩) ∧
    decOfString "3" = .ok ⟨3, 0⟩ ∧
    parseT 9 (.list [.leaf "-", .leaf "5"]) 0
      = .ok (.unop .neg (.atom (.num ⟨5, 0⟩)), .list [.leaf "-", .leaf "5"], 0) ∧
    evalFn ctxL 20 (.unop .neg (.atom (.num ⟨5, 0⟩))) (.dictRef 0) ⟨1, [(0, [])], []⟩
      = .ok (.atom (.num ⟨-5, 0⟩), ⟨1, [(0, [])], []⟩) ∧
    parseT 9 (.list [.leaf "/", .leaf "1", .leaf "3"]) 0
      = .ok (.binop .div (.atom (.num ⟨1, 0⟩)) (.atom (.num ⟨3, 0⟩)),
          .list [.leaf "/", .leaf "1", .leaf "3"], 0) ∧
    evalFn ctxL 20 (.binop .div (.atom (.num ⟨1, 0⟩)) (.atom (.num ⟨3, 0⟩)))
        (.dictRef 0) ⟨1, [(0, [])], []⟩
      = .ok (.atom (.num ⟨3333333333333333333333333333, -28⟩), ⟨1, [(0, [])], []⟩) ∧
    (3333333333333333333333333333 * 18014398509481984 : Int)
      ≠ 6004799503160661 * 10 ^ 28 ∧
    evalFn ctxL 20
        (.binop .eq (.binop .add (.atom (.num ⟨1, -1⟩)) (.atom (.num ⟨2, -1⟩)))
          (.atom (.num ⟨3, -1⟩)))
        (.dictRef 0) ⟨1, [(0, [])], []⟩
      = .ok (.atom (.bool true), ⟨1, [(0, [])], []⟩) ∧
    parseT 9 (.list [.leaf "==", .list [.leaf "+", .leaf "0.1", .leaf "0.2"], .leaf "0.3"]) 0
      = .ok (.binop .eq (.binop .add (.atom (.num ⟨1, -1⟩)) (.atom (.num ⟨2, -1⟩)))
          (.atom (.num ⟨3, -1⟩)),
          .list [.leaf "==", .list [.leaf "+", .leaf "0.1", .leaf "0.2"], .leaf "0.3"], 0) := by
  refine ⟨?_, ?_, ?_, ?_, ?_, ?_, ?_, ?_, ?_, ?_⟩ <;> first | decide | rfl

/-- C7: the declarative operator table maps the token `not` at one operand
to the class `Not`, but that class was generated by `create_binop`, so its
`parse` unpacks three elements and classifying `(not true)` raises
`ValueError` instead of producing a unary logical-negation node — and even
a directly constructed `Not` application raises `TypeError`, because
`operator.not_` receives two arguments.  Arity dispatch itself works: one
operand of `+` gives the unary `Pos` node, two give the binary `Add`. -/
theorem not_unary_parse_value_error :
    opsTbl "not" 1 = some (.bi .notB) ∧
    parseT 9 (.list [.leaf "not", .leaf "true"]) 0 = .error .valueError ∧
    applyBin .notB (.bool true) (.bool true) = .error .typeError ∧
    parseT 9 (.list [.leaf "+", .leaf "1"]) 0
      = .ok (.unop .pos (.atom (.num ⟨1, 0⟩)), .list [.leaf "+", .leaf "1"], 0) ∧
    parseT 9 (.list [.leaf "+", .leaf "1", .leaf "2"]) 0
      = .ok (.binop .add (.atom (.num ⟨1, 0⟩)) (.atom (.num ⟨2, 0⟩)),
          .list [.leaf "+", .leaf "1", .leaf "2"], 0) :=
  ⟨rfl, rfl, rfl, rfl, rfl⟩

/-- C8: `TailCall` overrides only `__iter__`, so under the tree-walking
evaluator a tail-call node evaluates exactly as the call node with the same
callee and arguments, for every environment, store and fuel; the compiled
output differs only in the final opcode (`PushTailFunc` in place of
`PushFunc`) after the identically compiled arguments. -/
theorem tailcall_eval_equiv_call (ctx : Ctx) (fuel : Nat) (nm : String)
    (args : List PNode) (env : EnvM) (st : St) :
    evalFn ctx fuel (.tailCallN nm args) env st = evalFn ctx fuel (.callN nm args) env st ∧
    compileN (.tailCallN nm args) = (compileEach args).reverse.flatten ++ [.pushTailFunc nm] ∧
    compileN (.callN nm args) = (compileEach args).reverse.flatten ++ [.pushFunc nm] := by
  refine ⟨?_, rfl, rfl⟩
  cases fuel <;> rfl

/-- C9 counterexample: two classifications of the same `while` source text
allocate distinct object identities (here 0 and 1 from consecutive
allocation states), and the compiled jump labels embed `hex(id(self))`, so
the two structurally identical loop nodes receive different label names. -/
theorem identical_whiles_distinct_labels :
    parseT 9 (.list [.leaf "while", .leaf "true", .leaf "nil"]) 0
      = .ok (.whileN 0 .trueN .nilN, .list [.leaf "while", .leaf "true", .leaf "nil"], 1) ∧
    parseT 9 (.list [.leaf "while", .leaf "true", .leaf "nil"]) 1
      = .ok (.whileN 1 .trueN .nilN, .list [.leaf "while", .leaf "true", .leaf "nil"], 2) ∧
    labelsOf (compileN (.whileN 0 .trueN .nilN)) = ["loop-start-0x0", "loop-end-0x0"] ∧
    labelsOf (compileN (.whileN 1 .trueN .nilN)) = ["loop-start-0x1", "loop-end-0x1"] ∧
    labelsOf (compileN (.whileN 0 .trueN .nilN)) ≠ labelsOf (compileN (.whileN 1 .trueN .nilN)) :=
  ⟨rfl, rfl, rfl, rfl, by decide⟩

/-- C10 counterexample: classifying `(^^f)` strips one marker in place,
leaving the tree `(^f)`, and re-classifying that mutated tree produces a
tail-call node again (not an ordinary call or variable reference); a
`(^set x 1)` head re-classifies as a `set` binding node, also not a call. -/
theorem double_caret_reparse_still_tailcall :
    parseT 9 (.list [.leaf "^^f"]) 0 = .ok (.tailCallN "^f" [], .list [.leaf "^f"], 0) ∧
    parseT 9 (.list [.leaf "^f"]) 0 = .ok (.tailCallN "f" [], .list [.leaf "f"], 0) ∧
    parseT 9 (.list [.leaf "^set", .leaf "x", .leaf "1"]) 0
      = .ok (.tailCallN "set" [.var "x", .atom (.num ⟨1, 0⟩)],
          .list [.leaf "set", .leaf "x", .leaf "1"], 0) ∧
    parseT 9 (.list [.leaf "set", .leaf "x", .leaf "1"]) 0
      = .ok (.setL "x" (.atom (.num ⟨1, 0⟩)), .list [.leaf "set", .leaf "x", .leaf "1"], 0) :=
  ⟨rfl, rfl, rfl, rfl⟩

/-- A string is its list of characters. -/
theorem strExt (s t : String) (h : s.data = t.data) : s = t := by
  cases s
  cases t
  exact congrArg String.mk h

/-- Characters of an appended string. -/
theorem data_append (s t : String) : (s ++ t).data = s.data ++ t.data := by
  cases s
  cases t
  rfl

/-- Updating one frame reference leaves the association of every other
reference unchanged. -/
theorem lookup_refSet_ne (l : List (Nat × List (String × PNode))) (r r' : Nat)
    (f : List (String × PNode)) (h : r' ≠ r) :
    (refSet l r f).lookup r' = l.lookup r' := by
  induction l with
  | nil =>
    have hb : (r' == r) = false := beq_eq_false_iff_ne.mpr h
    simp [refSet, List.lookup, hb]
  | cons hd tl ih =>
    obtain ⟨k, v⟩ := hd
    by_cases hk : k = r
    · subst hk
      have hb : (r' == k) = false := beq_eq_false_iff_ne.mpr h
      simp [refSet, List.lookup, hb]
    · simp only [refSet, if_neg hk, List.lookup]
      cases hbk : (r' == k) <;> simp [hbk, ih]

/-- Writing one frame of the store leaves every other frame unchanged: the
formal content of a binding landing in its target frame and nowhere
else. -/
theorem frameOf_writeFrame_ne (st : St) (r r' : Nat) (f : List (String × PNode))
    (h : r' ≠ r) : (st.writeFrame r f).frameOf r' = st.frameOf r' := by
  unfold St.writeFrame St.frameOf
  simp [lookup_refSet_ne _ _ _ _ h]

/-- C3 (amended): in a chained environment whose frames are the local frame
`l`, at least one captured-closure frame (`c` first), and the global frame
`g` last, closure-set evaluates its right-hand side and writes the binding
into the first captured-closure frame `c` — and, by
`frameOf_writeFrame_ne`, into no other frame; global-set writes into the
global frame `g` regardless of the nesting depth `mid`, and into no other
frame.  (With zero captured-closure frames, `maps[1]` is the global frame
itself, as the corresponding counterexample shows.) -/
theorem setc_setg_target_frames
    (ctx : Ctx) (fuel : Nat) (nm : String) (v vres : PNode)
    (l c g : Nat) (mid : List EnvM) (st st1 : St)
    (hv : evalFn ctx fuel v (.chain (.dictRef l :: .dictRef c :: mid ++ [.dictRef g])) st
      = .ok (vres, st1)) :
    evalFn ctx (fuel + 1) (.setC nm v)
        (.chain (.dictRef l :: .dictRef c :: mid ++ [.dictRef g])) st
      = .ok (vres, st1.writeFrame c (frameSet (st1.frameOf c) nm vres)) ∧
    evalFn ctx (fuel + 1) (.setG nm v)
        (.chain (.dictRef l :: .dictRef c :: mid ++ [.dictRef g])) st
      = .ok (vres, st1.writeFrame g (frameSet (st1.frameOf g) nm vres)) := by
  have hlast : (EnvM.dictRef l :: EnvM.dictRef c :: mid ++ [EnvM.dictRef g]).getLast?
      = some (EnvM.dictRef g) := by
    rw [show EnvM.dictRef l :: EnvM.dictRef c :: mid ++ [EnvM.dictRef g]
        = (EnvM.dictRef l :: EnvM.dictRef c :: mid) ++ [EnvM.dictRef g] by simp]
    exact List.getLast?_concat _
  constructor
  · simp only [evalFn]
    rw [hv]
    rfl
  · simp only [evalFn]
    rw [hv, hlast]
    rfl

/-- C3 witness: the amended statement at the chain local 0, closure 2,
global 1, binding x to the decimal 1. -/
theorem setc_setg_target_frames_witness :
    evalFn ctxL 6 (.setC "x" (.atom (.num ⟨1, 0⟩)))
        (.chain (.dictRef 0 :: .dictRef 2 :: [] ++ [.dictRef 1])) st3
      = .ok (.atom (.num ⟨1, 0⟩),
          st3.writeFrame 2 (frameSet (st3.frameOf 2) "x" (.atom (.num ⟨1, 0⟩)))) ∧
    evalFn ctxL 6 (.setG "x" (.atom (.num ⟨1, 0⟩)))
        (.chain (.dictRef 0 :: .dictRef 2 :: [] ++ [.dictRef 1])) st3
      = .ok (.atom (.num ⟨1, 0⟩),
          st3.writeFrame 1 (frameSet (st3.frameOf 1) "x" (.atom (.num ⟨1, 0⟩)))) :=
  setc_setg_target_frames ctxL 5 "x" (.atom (.num ⟨1, 0⟩)) (.atom (.num ⟨1, 0⟩))
    0 2 1 [] st3 st3 rfl

/-- Bind of a successful `Except` computation. -/
theorem exc_bind_ok {α β : Type} (a : α) (f : α → Except PErr β) :
    (Except.ok a >>= f) = f a := rfl

/-- C4 (amended): `Lambda.__call__` captures `env.maps[:-1]` — every frame
of a chained environment except the outermost (global) frame, including
the innermost local frame — and captures nothing from a flat environment.
Invoking the closure through a `Call` node whose callee resolves to it
applies the generated `Ufunc` to the evaluated arguments; the application
allocates a fresh local frame zipping parameter names to arguments and
evaluates the body in that frame chained under the captured frames and
either the last (global) frame of the call-site environment (lexical, with
a chained caller) or the whole call-site environment (dynamic mode, or a
flat caller). -/
theorem lambda_capture_and_invocation
    (ctx : Ctx) (fuel : Nat) (ps : List String) (body : PNode)
    (ms : List EnvM) (r' : Nat) (cls : List EnvM) (args avs : List PNode)
    (nm : String) (env : EnvM) (st st1 : St)
    (hargs : evalL ctx fuel args env st = .ok (avs, st1))
    (hlook : envLookup st1 env nm = some (.ufuncDef ps body cls)) :
    evalFn ctx (fuel + 1) (.lambdaN ps body) (.chain ms) st
      = .ok (.ufuncDef ps body ms.dropLast, st) ∧
    evalFn ctx (fuel + 1) (.lambdaN ps body) (.dictRef r') st
      = .ok (.ufuncDef ps body [], st) ∧
    evalFn ctx (fuel + 2) (.callN nm args) env st
      = evalFn ctx fuel (.ufuncObj ps body cls avs) env st1 ∧
    (ctx.sc = .lexical →
      evalFn ctx (fuel + 2) (.ufuncObj ps body cls avs) (.chain ms) st1
        = evalFn ctx fuel body
            (.chain (.dictRef (st1.alloc (zipFrame ps avs)).1 :: cls
              ++ [(ms.getLast?).getD (.dictRef 0)]))
            (st1.alloc (zipFrame ps avs)).2) ∧
    (ctx.sc = .lexical →
      evalFn ctx (fuel + 2) (.ufuncObj ps body cls avs) (.dictRef r') st1
        = evalFn ctx fuel body
            (.chain (.dictRef (st1.alloc (zipFrame ps avs)).1 :: cls ++ [.dictRef r']))
            (st1.alloc (zipFrame ps avs)).2) ∧
    (ctx.sc = .dynamic →
      evalFn ctx (fuel + 2) (.ufuncObj ps body cls avs) env st1
        = evalFn ctx fuel body
            (.chain (.dictRef (st1.alloc (zipFrame ps avs)).1 :: cls ++ [env]))
            (st1.alloc (zipFrame ps avs)).2) := by
  obtain ⟨sc, rd⟩ := ctx
  refine ⟨rfl, rfl, ?_, ?_, ?_, ?_⟩
  · simp only [evalFn, evalCall]
    rw [hargs, exc_bind_ok, hlook]
  · intro h
    cases h
    rfl
  · intro h
    cases h
    rfl
  · intro h
    cases h
    cases env <;> rfl

/-- C4 witness: the amended statement at a concrete one-parameter closure
bound to `f`, called with the decimal 4 in the two-frame chain. -/
theorem lambda_capture_and_invocation_witness :
    evalFn ctxL 4 (.lambdaN ["p"] (.var "p")) (.chain [.dictRef 0, .dictRef 1])
        ⟨2, [(0, [("f", .ufuncDef ["p"] (.var "p") [.dictRef 0])]), (1, [])], []⟩
      = .ok (.ufuncDef ["p"] (.var "p") [EnvM.dictRef 0, EnvM.dictRef 1].dropLast,
          ⟨2, [(0, [("f", .ufuncDef ["p"] (.var "p") [.dictRef 0])]), (1, [])], []⟩) ∧
    evalFn ctxL 4 (.lambdaN ["p"] (.var "p")) (.dictRef 0)
        ⟨2, [(0, [("f", .ufuncDef ["p"] (.var "p") [.dictRef 0])]), (1, [])], []⟩
      = .ok (.ufuncDef ["p"] (.var "p") [],
          ⟨2, [(0, [("f", .ufuncDef ["p"] (.var "p") [.dictRef 0])]), (1, [])], []⟩) ∧
    evalFn ctxL 5 (.callN "f" [.atom (.num ⟨4, 0⟩)]) (.chain [.dictRef 0, .dictRef 1])
        ⟨2, [(0, [("f", .ufuncDef ["p"] (.var "p") [.dictRef 0])]), (1, [])], []⟩
      = evalFn ctxL 3 (.ufuncObj ["p"] (.var "p") [.dictRef 0] [.atom (.num ⟨4, 0⟩)])
          (.chain [.dictRef 0, .dictRef 1])
          ⟨2, [(0, [("f", .ufuncDef ["p"] (.var "p") [.dictRef 0])]), (1, [])], []⟩ ∧
    (ctxL.sc = .lexical →
      evalFn ctxL 5 (.ufuncObj ["p"] (.var "p") [.dictRef 0] [.atom (.num ⟨4, 0⟩)])
          (.chain [.dictRef 0, .dictRef 1])
          ⟨2, [(0, [("f", .ufuncDef ["p"] (.var "p") [.dictRef 0])]), (1, [])], []⟩
        = evalFn ctxL 3 (.var "p")
            (.chain (.dictRef
                ((⟨2, [(0, [("f", .ufuncDef ["p"] (.var "p") [.dictRef 0])]), (1, [])], []⟩ : St).alloc
                  (zipFrame ["p"] [.atom (.num ⟨4, 0⟩)])).1
              :: [EnvM.dictRef 0]
              ++ [([EnvM.dictRef 0, EnvM.dictRef 1].getLast?).getD (.dictRef 0)]))
            ((⟨2, [(0, [("f", .ufuncDef ["p"] (.var "p") [.dictRef 0])]), (1, [])], []⟩ : St).alloc
              (zipFrame ["p"] [.atom (.num ⟨4, 0⟩)])).2) ∧
    (ctxL.sc = .lexical →
      evalFn ctxL 5 (.ufuncObj ["p"] (.var "p") [.dictRef 0] [.atom (.num ⟨4, 0⟩)])
          (.dictRef 0)
          ⟨2, [(0, [("f", .ufuncDef ["p"] (.var "p") [.dictRef 0])]), (1, [])], []⟩
        = evalFn ctxL 3 (.var "p")
            (.chain (.dictRef
                ((⟨2, [(0, [("f", .ufuncDef ["p"] (.var "p") [.dictRef 0])]), (1, [])], []⟩ : St).alloc
                  (zipFrame ["p"] [.atom (.num ⟨4, 0⟩)])).1
              :: [EnvM.dictRef 0] ++ [.dictRef 0]))
            ((⟨2, [(0, [("f", .ufuncDef ["p"] (.var "p") [.dictRef 0])]), (1, [])], []⟩ : St).alloc
              (zipFrame ["p"] [.atom (.num ⟨4, 0⟩)])).2) ∧
    (ctxL.sc = .dynamic →
      evalFn ctxL 5 (.ufuncObj ["p"] (.var "p") [.dictRef 0] [.atom (.num ⟨4, 0⟩)])
          (.chain [.dictRef 0, .dictRef 1])
          ⟨2, [(0, [("f", .ufuncDef ["p"] (.var "p") [.dictRef 0])]), (1, [])], []⟩
        = evalFn ctxL 3 (.var "p")
            (.chain (.dictRef
                ((⟨2, [(0, [("f", .ufuncDef ["p"] (.var "p") [.dictRef 0])]), (1, [])], []⟩ : St).alloc
                  (zipFrame ["p"] [.atom (.num ⟨4, 0⟩)])).1
              :: [EnvM.dictRef 0] ++ [.chain [.dictRef 0, .dictRef 1]]))
            ((⟨2, [(0, [("f", .ufuncDef ["p"] (.var "p") [.dictRef 0])]), (1, [])], []⟩ : St).alloc
              (zipFrame ["p"] [.atom (.num ⟨4, 0⟩)])).2) :=
  lambda_capture_and_invocation ctxL 3 ["p"] (.var "p") [.dictRef 0, .dictRef 1] 0
    [.dictRef 0] [.atom (.num ⟨4, 0⟩)] [.atom (.num ⟨4, 0⟩)] "f"
    (.chain [.dictRef 0, .dictRef 1])
    ⟨2, [(0, [("f", .ufuncDef ["p"] (.var "p") [.dictRef 0])]), (1, [])], []⟩
    ⟨2, [(0, [("f", .ufuncDef ["p"] (.var "p") [.dictRef 0])]), (1, [])], []⟩
    rfl rfl

/-- C5 (amended): `car`/`cdr` applied to an operand that evaluates to a
node with no `car`/`cdr` attribute (anything but a `Cell` or `Cons`) fail
with `AttributeError`, which is not the `ProgramError` kind; and node
evaluation raises error kinds other than `ProgramError` — an unclassified
node raises `NotImplementedError` from the base `Node.__call__`.
`ProgramError` itself arises from failed assertions and unresolved
names. -/
theorem car_cdr_error_kinds
    (ctx : Ctx) (fuel : Nat) (x v : PNode) (env : EnvM) (st st1 : St) (t : Tree)
    (hx : evalFn ctx fuel x env st = .ok (v, st1))
    (hv : hasCarAttr v = false) :
    evalFn ctx (fuel + 1) (.carN x) env st = .error .attrError ∧
    evalFn ctx (fuel + 1) (.cdrN x) env st = .error .attrError ∧
    PErr.attrError.isProgram = false ∧
    evalFn ctx (fuel + 1) (.nimpl t) env st = .error .notImplErr ∧
    PErr.notImplErr.isProgram = false := by
  refine ⟨?_, ?_, rfl, rfl, rfl⟩ <;>
  · simp only [evalFn]
    rw [hx, exc_bind_ok]
    cases v <;> first | rfl | simp [hasCarAttr] at hv

/-- C5 witness: the amended statement at `car`/`cdr` of a number atom. -/
theorem car_cdr_error_kinds_witness :
    evalFn ctxL 6 (.carN (.atom (.num ⟨5, 0⟩))) (.dictRef 0) st2 = .error .attrError ∧
    evalFn ctxL 6 (.cdrN (.atom (.num ⟨5, 0⟩))) (.dictRef 0) st2 = .error .attrError ∧
    PErr.attrError.isProgram = false ∧
    evalFn ctxL 6 (.nimpl (.leaf "w")) (.dictRef 0) st2 = .error .notImplErr ∧
    PErr.notImplErr.isProgram = false :=
  car_cdr_error_kinds ctxL 5 (.atom (.num ⟨5, 0⟩)) (.atom (.num ⟨5, 0⟩))
    (.dictRef 0) st2 st2 (.leaf "w") rfl rfl

/-- Numeric value of a lowercase hex digit character. -/
def unhexDigit (c : Char) : Nat :=
  if c.toNat < 97 then c.toNat - 48 else c.toNat - 87

/-- Numeric value of a lowercase hex digit string. -/
def unhexL (l : List Char) : Nat := l.foldl (fun a c => 16 * a + unhexDigit c) 0

/-- Decoding inverts the hex digit character table. -/
theorem unhexDigit_hexDigitCh (m : Nat) (h : m < 16) : unhexDigit (hexDigitCh m) = m := by
  interval_cases m <;> rfl

/-- Decoding one more trailing digit. -/
theorem unhexL_append_digit (l : List Char) (c : Char) :
    unhexL (l ++ [c]) = 16 * unhexL l + unhexDigit c := by
  simp [unhexL, List.foldl_append]

/-- Decoding inverts `hexCore` whenever the fuel covers the digits. -/
theorem unhex_hexCore (f : Nat) : ∀ n, n < 16 ^ f → unhexL (hexCore f n).data = n := by
  induction f with
  | zero =>
    intro n hn
    have h0 : n = 0 := by simpa using hn
    subst h0
    rfl
  | succ f ih =>
    intro n hn
    by_cases h0 : n = 0
    · subst h0
      rfl
    · have hdiv : n / 16 < 16 ^ f := by
        rw [Nat.div_lt_iff_lt_mul (by norm_num)]
        calc n < 16 ^ (f + 1) := hn
          _ = 16 ^ f * 16 := by ring
      rw [show hexCore (f + 1) n = hexCore f (n / 16) ++ String.mk [hexDigitCh (n % 16)] by
            simp [hexCore, h0]]
      rw [data_append]
      rw [show (String.mk [hexDigitCh (n % 16)]).data = [hexDigitCh (n % 16)] from rfl]
      rw [unhexL_append_digit, ih _ hdiv, unhexDigit_hexDigitCh _ (Nat.mod_lt _ (by norm_num))]
      omega

/-- `hex` of distinct numbers yields distinct strings. -/
theorem hexS_inj (m n : Nat) (h : hexS m = hexS n) : m = n := by
  have hm : m < 16 ^ (m + 1) :=
    lt_of_lt_of_le (Nat.lt_pow_self (by norm_num) m)
      (Nat.pow_le_pow_right (by norm_num) (Nat.le_succ m))
  have hn : n < 16 ^ (n + 1) :=
    lt_of_lt_of_le (Nat.lt_pow_self (by norm_num) n)
      (Nat.pow_le_pow_right (by norm_num) (Nat.le_succ n))
  unfold hexS at h
  by_cases h0m : m = 0 <;> by_cases h0n : n = 0
  · omega
  · rw [if_pos h0m, if_neg h0n] at h
    have h1 : ('0' :: 'x' :: '0' :: ([] : List Char))
        = '0' :: 'x' :: (hexCore (n + 1) n).data := by
      simpa [data_append] using congrArg String.data h
    injection h1 with _ h2
    injection h2 with _ h3
    have hu := unhex_hexCore (n + 1) n hn
    rw [← h3] at hu
    have hz : unhexL ['0'] = 0 := rfl
    rw [hz] at hu
    omega
  · rw [if_neg h0m, if_pos h0n] at h
    have h1 : ('0' :: 'x' :: (hexCore (m + 1) m).data)
        = '0' :: 'x' :: '0' :: ([] : List Char) := by
      simpa [data_append] using congrArg String.data h
    injection h1 with _ h2
    injection h2 with _ h3
    have hu := unhex_hexCore (m + 1) m hm
    rw [h3] at hu
    have hz : unhexL ['0'] = 0 := rfl
    rw [hz] at hu
    omega
  · rw [if_neg h0m, if_neg h0n] at h
    have h1 : ('0' :: 'x' :: (hexCore (m + 1) m).data)
        = '0' :: 'x' :: (hexCore (n + 1) n).data := by
      simpa [data_append] using congrArg String.data h
    injection h1 with _ h2
    injection h2 with _ h3
    have hum := unhex_hexCore (m + 1) m hm
    have hun := unhex_hexCore (n + 1) n hn
    rw [h3] at hum
    omega

/-- A label form applied to distinct identities yields distinct labels. -/
theorem label_prefix_inj (p : String) (i j : Nat) (h : p ++ hexS i = p ++ hexS j) :
    i = j := by
  have hd := congrArg String.data h
  rw [data_append, data_append] at hd
  exact hexS_inj i j (strExt _ _ (List.append_cancel_left hd))

/-- Two appended character lists with a mismatch inside both prefixes are
distinct. -/
theorem append_lists_ne (p q A B : List Char) (k : Nat)
    (hkp : k < p.length) (hkq : k < q.length) (hne : p[k]? ≠ q[k]?) :
    p ++ A ≠ q ++ B := by
  intro h
  apply hne
  have e1 : (p ++ A)[k]? = p[k]? := List.getElem?_append_left hkp
  have e2 : (q ++ B)[k]? = q[k]? := List.getElem?_append_left hkq
  rw [← e1, ← e2, h]

/-- C9 (amended): the jump labels of the compiler are derived from object
identity, `hex(id(self))` behind a role prefix.  Distinct identities give
distinct labels of every role, and the four roles are pairwise distinct
even across identities, so all labels of all live (distinct-identity)
nodes are globally unique.  But the label does depend on identity, not on
structure: compiling two structurally identical `while` nodes with
distinct identities yields different label names (only recompiling the
same node reproduces its labels, `compileN` being a function of the
node). -/
theorem labels_unique_and_identity_dependent (i j : Nat) (hij : i ≠ j) :
    whileStartLbl i ≠ whileStartLbl j ∧
    whileEndLbl i ≠ whileEndLbl j ∧
    elsebodyLbl i ≠ elsebodyLbl j ∧
    endLbl i ≠ endLbl j ∧
    whileStartLbl i ≠ whileEndLbl j ∧
    whileStartLbl i ≠ elsebodyLbl j ∧
    whileStartLbl i ≠ endLbl j ∧
    whileEndLbl i ≠ elsebodyLbl j ∧
    whileEndLbl i ≠ endLbl j ∧
    elsebodyLbl i ≠ endLbl j ∧
    labelsOf (compileN (.whileN i .trueN .nilN)) ≠ labelsOf (compileN (.whileN j .trueN .nilN)) := by
  have hsf : ∀ p : String, p ++ hexS i ≠ p ++ hexS j :=
    fun p h => hij (label_prefix_inj p i j h)
  have hcross : ∀ (p q : String) (k : Nat), k < p.data.length → k < q.data.length →
      p.data[k]? ≠ q.data[k]? → p ++ hexS i ≠ q ++ hexS j := by
    intro p q k hkp hkq hne h
    have hd := congrArg String.data h
    rw [data_append, data_append] at hd
    exact append_lists_ne p.data q.data _ _ k hkp hkq hne hd
  have hwl : labelsOf (compileN (.whileN i .trueN .nilN)) = [whileStartLbl i, whileEndLbl i] := by
    simp [compileN, labelsOf, List.filterMap]
  have hwl2 : labelsOf (compileN (.whileN j .trueN .nilN)) = [whileStartLbl j, whileEndLbl j] := by
    simp [compileN, labelsOf, List.filterMap]
  refine ⟨hsf _, hsf _, hsf _, hsf _,
    hcross _ _ 5 (by decide) (by decide) (by decide),
    hcross _ _ 0 (by decide) (by decide) (by decide),
    hcross _ _ 0 (by decide) (by decide) (by decide),
    hcross _ _ 0 (by decide) (by decide) (by decide),
    hcross _ _ 0 (by decide) (by decide) (by decide),
    hcross _ _ 1 (by decide) (by decide) (by decide), ?_⟩
  rw [hwl, hwl2]
  intro h
  injection h with h1 _
  exact hsf "loop-start-" h1

/-- C9 witness: the amended statement at the identities 0 and 1. -/
theorem labels_unique_and_identity_dependent_witness :
    whileStartLbl 0 ≠ whileStartLbl 1 ∧
    whileEndLbl 0 ≠ whileEndLbl 1 ∧
    elsebodyLbl 0 ≠ elsebodyLbl 1 ∧
    endLbl 0 ≠ endLbl 1 ∧
    whileStartLbl 0 ≠ whileEndLbl 1 ∧
    whileStartLbl 0 ≠ elsebodyLbl 1 ∧
    whileStartLbl 0 ≠ endLbl 1 ∧
    whileEndLbl 0 ≠ elsebodyLbl 1 ∧
    whileEndLbl 0 ≠ endLbl 1 ∧
    elsebodyLbl 0 ≠ endLbl 1 ∧
    labelsOf (compileN (.whileN 0 .trueN .nilN)) ≠ labelsOf (compileN (.whileN 1 .trueN .nilN)) :=
  labels_unique_and_identity_dependent 0 1 (by decide)

/-- The head tokens the classifier recognizes as forms, comparisons,
operators or built-ins before reaching the call/tail-call branch. -/
def KEYWORDS : List String :=
  ["set", "setg", "setc", "ret", "lambda", "==", "<>", "<", ">", "<=", ">=",
   "+", "-", "*", "/", "%", "**", "and", "or", "not", "xor",
   "print", "printf", "printfs", "format", "assert", "list", "cons", "car",
   "cdr", "if", "while", "parse", "quoted", "eval", "read"]

/-- A marker-prefixed token is never equal to a token that does not start
with the marker. -/
theorem caret_append_ne (s t : String) (h : headIs '^' t = false) : "^" ++ s ≠ t := by
  intro he
  have hd := congrArg String.data he
  rw [data_append, show ("^" : String).data = ['^'] from rfl, List.singleton_append] at hd
  unfold headIs at h
  cases ht : t.data with
  | nil =>
    rw [ht] at hd
    exact List.noConfusion hd
  | cons c cs =>
    rw [ht] at h hd
    injection hd with h1 _
    have h2 : (c == '^') = false := h
    rw [← h1] at h2
    simp at h2

/-- Stripping the marker from a marker-prefixed token. -/
theorem strTail_caret (s : String) : strTail ("^" ++ s) = s := by
  unfold strTail
  rw [data_append, show ("^" : String).data = ['^'] from rfl, List.singleton_append]
  cases s
  rfl

/-- A marker-prefixed token starts with the marker. -/
theorem headIs_caret (s : String) : headIs '^' ("^" ++ s) = true := by
  unfold headIs
  rw [data_append, show ("^" : String).data = ['^'] from rfl, List.singleton_append]
  rfl

/-- A marker-prefixed token is not in the operator table. -/
theorem isOpTok_caret (s : String) : isOpTok ("^" ++ s) = false := by
  unfold isOpTok
  have hne : ∀ t : String, headIs '^' t = false → (("^" ++ s) == t) = false :=
    fun t h => beq_eq_false_iff_ne.mpr (caret_append_ne s t h)
  rw [hne "+" rfl, hne "-" rfl, hne "*" rfl, hne "/" rfl, hne "%" rfl, hne "**" rfl,
      hne "and" rfl, hne "or" rfl, hne "not" rfl, hne "xor" rfl]
  rfl

/-- C10 (amended): classifying a list tree whose head token starts with the
tail-call marker strips the marker from the head in place and produces a
tail-call node; classification is therefore not idempotent on tail-call
forms: classifying the mutated tree again classifies the stripped tree,
which yields an ordinary call node whenever the stripped head is a plain
name — one that does not itself start with the marker (unlike `^^f`) and
is not a recognized form/operator/built-in token (unlike `^set`). -/
theorem parse_strips_marker_not_idempotent
    (fuel : Nat) (s : String) (ts ts1 ts2 : List Tree) (args args2 : List PNode)
    (n n1 n2 n3 : Nat)
    (hkw : ∀ t ∈ KEYWORDS, s ≠ t)
    (hcaret : headIs '^' s = false)
    (h1 : parseTL fuel ts n = .ok (args, ts1, n1))
    (h2 : parseTL fuel ts1 n2 = .ok (args2, ts2, n3)) :
    parseT (fuel + 2) (.list (.leaf ("^" ++ s) :: ts)) n
      = .ok (.tailCallN s args, .list (.leaf s :: ts1), n1) ∧
    parseT (fuel + 2) (.list (.leaf s :: ts1)) n2
      = .ok (.callN s args2, .list (.leaf s :: ts2), n3) := by
  have F1 : ∀ t, headIs '^' t = false → ("^" ++ s = t) = False :=
    fun t ht => eq_false (caret_append_ne s t ht)
  have F2 : ∀ t ∈ KEYWORDS, (s = t) = False := fun t ht => eq_false (hkw t ht)
  have hop : isOpTok s = false := by
    unfold isOpTok
    rw [beq_eq_false_iff_ne.mpr (hkw "+" (by decide)),
        beq_eq_false_iff_ne.mpr (hkw "-" (by decide)),
        beq_eq_false_iff_ne.mpr (hkw "*" (by decide)),
        beq_eq_false_iff_ne.mpr (hkw "/" (by decide)),
        beq_eq_false_iff_ne.mpr (hkw "%" (by decide)),
        beq_eq_false_iff_ne.mpr (hkw "**" (by decide)),
        beq_eq_false_iff_ne.mpr (hkw "and" (by decide)),
        beq_eq_false_iff_ne.mpr (hkw "or" (by decide)),
        beq_eq_false_iff_ne.mpr (hkw "not" (by decide)),
        beq_eq_false_iff_ne.mpr (hkw "xor" (by decide))]
    rfl
  constructor
  · simp only [parseT, List.all_cons, Tree.isList, Bool.false_and, Bool.false_eq_true,
      if_false,
      F1 "set" rfl, F1 "setg" rfl, F1 "setc" rfl, F1 "ret" rfl, F1 "lambda" rfl,
      F1 "==" rfl, F1 "<>" rfl, F1 "<" rfl, F1 ">" rfl, F1 "<=" rfl, F1 ">=" rfl,
      isOpTok_caret,
      F1 "print" rfl, F1 "printf" rfl, F1 "printfs" rfl, F1 "format" rfl,
      F1 "assert" rfl, F1 "list" rfl, F1 "cons" rfl, F1 "car" rfl, F1 "cdr" rfl,
      F1 "if" rfl, F1 "while" rfl, F1 "parse" rfl, F1 "quoted" rfl, F1 "eval" rfl,
      F1 "read" rfl, parseForm, headIs_caret, strTail_caret]
    cases ts with
    | nil =>
      cases fuel with
      | zero => simp [parseTL] at h1
      | succ f =>
        simp only [parseTL] at h1
        injection h1 with h1
        injection h1 with ha hrest
        injection hrest with hts hn
        subst ha
        subst hts
        subst hn
        rfl
    | cons t1 ts0 =>
      simp [h1, exc_bind_ok]
  · simp only [parseT, List.all_cons, Tree.isList, Bool.false_and, Bool.false_eq_true,
      if_false,
      F2 "set" (by decide), F2 "setg" (by decide), F2 "setc" (by decide),
      F2 "ret" (by decide), F2 "lambda" (by decide),
      F2 "==" (by decide), F2 "<>" (by decide), F2 "<" (by decide),
      F2 ">" (by decide), F2 "<=" (by decide), F2 ">=" (by decide),
      hop,
      F2 "print" (by decide), F2 "printf" (by decide), F2 "printfs" (by decide),
      F2 "format" (by decide),
      F2 "assert" (by decide), F2 "list" (by decide), F2 "cons" (by decide),
      F2 "car" (by decide), F2 "cdr" (by decide),
      F2 "if" (by decide), F2 "while" (by decide), F2 "parse" (by decide),
      F2 "quoted" (by decide), F2 "eval" (by decide), F2 "read" (by decide),
      parseForm, hcaret]
    cases ts1 with
    | nil =>
      cases fuel with
      | zero => simp [parseTL] at h2
      | succ f =>
        simp only [parseTL] at h2
        injection h2 with h2
        injection h2 with ha hrest
        injection hrest with hts hn
        subst ha
        subst hts
        subst hn
        rfl
    | cons t1 ts0 =>
      simp [h2, exc_bind_ok]

/-- C10 witness: the amended statement at the head `^g` with one numeric
argument. -/
theorem parse_strips_marker_not_idempotent_witness :
    parseT 9 (.list (.leaf ("^" ++ "g") :: [.leaf "3"])) 0
      = .ok (.tailCallN "g" [.atom (.num ⟨3, 0⟩)], .list (.leaf "g" :: [.leaf "3"]), 0) ∧
    parseT 9 (.list (.leaf "g" :: [.leaf "3"])) 0
      = .ok (.callN "g" [.atom (.num ⟨3, 0⟩)], .list (.leaf "g" :: [.leaf "3"]), 0) :=
  parse_strips_marker_not_idempotent 7 "g" [.leaf "3"] [.leaf "3"] [.leaf "3"]
    [.atom (.num ⟨3, 0⟩)] [.atom (.num ⟨3, 0⟩)] 0 0 0 0
    (by decide) rfl rfl rfl

end Pylisp
